import Mathlib

/-!
Verification of the imgResample program (imgResample.c).

The program resamples a PPM raster image either by an arbitrary factor
using bicubic interpolation (resize_image / sample_bicubic /
get_pixel_clamped / cubic_hermite) or by a fixed 2x box downsample
(resize2).  The development below is a shallow embedding of those
functions:

* pixels are triples of natural-number channels (8-bit in the original,
  modelled as naturals together with a validity predicate bounding every
  channel by 255);
* an image is a width, a height, and a row-major pixel list;
* C double arithmetic is modelled by rational arithmetic (every constant
  appearing in the concrete computations below is an exactly
  representable dyadic rational, so the rational results coincide with
  the IEEE double results);
* the C cast from double to a machine integer truncates toward zero and
  is modelled by truncD;
* the division y / (destHeight - 1) performed by resize_image produces a
  NaN double when the divisor is zero; a NaN has no rational counterpart
  and subsequently flows into an undefined double-to-int cast, so
  resize_image is modelled as returning none exactly when one of those
  zero-divisor divisions is executed by the loops.
-/

/-- One RGB pixel of the PPM image: three 8-bit channels (struct PPMPixel),
channels modelled as naturals. -/
structure Pix where
  red : ℕ
  green : ℕ
  blue : ℕ
deriving DecidableEq

instance : Inhabited Pix := ⟨⟨0, 0, 0⟩⟩

/-- A PPM image (struct PPMImage): width x, height y and the row-major
pixel array, modelled as a list. -/
structure Img where
  x : ℕ
  y : ℕ
  data : List Pix
deriving DecidableEq

/-- Well-formedness of an image buffer: the pixel array has exactly
width times height entries (the allocation invariant of readPPM). -/
def Img.Wf (img : Img) : Prop := img.data.length = img.x * img.y

/-- Channel validity: every stored channel fits in 8 bits.  In the C
program this holds by construction because channels are unsigned char. -/
def Img.Valid (img : Img) : Prop :=
  ∀ p ∈ img.data, p.red ≤ 255 ∧ p.green ≤ 255 ∧ p.blue ≤ 255

instance (img : Img) : Decidable img.Wf := by
  unfold Img.Wf
  infer_instance

instance (img : Img) : Decidable img.Valid := by
  unfold Img.Valid
  exact List.decidableBAll _ _

/-- The pixel of an image at coordinates (x, y): entry x + width * y of
the row-major array (out-of-range access yields the default pixel). -/
def Img.pix (img : Img) (x y : ℕ) : Pix :=
  img.data.getD (x + img.x * y) default

/-- The CLAMP macro of imgResample.c on machine integers:
if (v < min) v = min; else if (v > max) v = max. -/
def clampC (v lo hi : ℤ) : ℤ :=
  if v < lo then lo else if v > hi then hi else v

/-- The CLAMP macro of imgResample.c applied to doubles (modelled as
rationals), as used on the interpolated value in sample_bicubic. -/
def clampQ (v lo hi : ℚ) : ℚ :=
  if v < lo then lo else if v > hi then hi else v

/-- The C cast from double to a machine integer: truncation toward
zero. -/
def truncD (q : ℚ) : ℤ :=
  if q < 0 then ⌈q⌉ else ⌊q⌋

/-- get_pixel_clamped of imgResample.c: clamp x to [0, width-1] and y to
[0, height-1] with the CLAMP macro, then read the pixel at index
x + width * y of the row-major array. -/
def get_pixel_clamped (img : Img) (x y : ℤ) : Pix :=
  let cx := clampC x 0 (img.x - 1)
  let cy := clampC y 0 (img.y - 1)
  img.data.getD (cx + img.x * cy).toNat default

/-- cubic_hermite of imgResample.c: the Catmull-Rom cubic through the
four control values A B C D evaluated at t, computed exactly as in the
source (coefficients a, b, c, d, then a*t*t*t + b*t*t + c*t + d).  The
function clamps nothing. -/
def cubic_hermite (A B C D t : ℚ) : ℚ :=
  let a := -A / 2 + (3 * B) / 2 - (3 * C) / 2 + D / 2
  let b := A - (5 * B) / 2 + 2 * C - D / 2
  let c := -A / 2 + C / 2
  let d := B
  a * t * t * t + b * t * t + c * t + d

/-- The cubic polynomial exactly as the specification section 4.2 writes
it: result = a * t^3 + b * t^2 + c * t + d with
a = -A/2 + 3B/2 - 3C/2 + D/2, b = A - 5B/2 + 2C - D/2,
c = -A/2 + C/2, d = B. -/
def hermite_spec (A B C D t : ℚ) : ℚ :=
  (-A / 2 + 3 * B / 2 - 3 * C / 2 + D / 2) * t ^ 3 +
    (A - 5 * B / 2 + 2 * C - D / 2) * t ^ 2 +
    (-A / 2 + C / 2) * t + B

/-- The fractional source coordinate of sample_bicubic:
x = u * sourceWidth - 0.5 (and the same formula for y). -/
def srcCoord (dim : ℕ) (uv : ℚ) : ℚ := uv * dim - 1 / 2

/-- The integer base index of sample_bicubic: xint = (int) x, the C cast,
i.e. truncation toward zero. -/
def coordInt (x : ℚ) : ℤ := truncD x

/-- The fractional offset of sample_bicubic: xfract = x - floor(x). -/
def coordFract (x : ℚ) : ℚ := x - ⌊x⌋

/-- One channel of sample_bicubic: gather the 4x4 neighborhood at
offsets -1, 0, 1, 2 around (xint, yint) through get_pixel_clamped,
interpolate each of the four rows at xfract, interpolate the resulting
column at yfract, clamp to [0, 255] and truncate to an 8-bit value. -/
def sampleChannel (f : Pix → ℕ) (img : Img) (xint yint : ℤ)
    (xfract yfract : ℚ) : ℕ :=
  let g : ℤ → ℤ → ℚ := fun dx dy =>
    (f (get_pixel_clamped img (xint + dx) (yint + dy)) : ℚ)
  let col0 := cubic_hermite (g (-1) (-1)) (g 0 (-1)) (g 1 (-1)) (g 2 (-1)) xfract
  let col1 := cubic_hermite (g (-1) 0) (g 0 0) (g 1 0) (g 2 0) xfract
  let col2 := cubic_hermite (g (-1) 1) (g 0 1) (g 1 1) (g 2 1) xfract
  let col3 := cubic_hermite (g (-1) 2) (g 0 2) (g 1 2) (g 2 2) xfract
  let value := cubic_hermite col0 col1 col2 col3 yfract
  (truncD (clampQ value 0 255)).toNat

/-- sample_bicubic of imgResample.c: map (u, v) to fractional source
coordinates, take the integer base by the C int cast and the fractional
part relative to floor, and interpolate each channel separably. -/
def sample_bicubic (img : Img) (u v : ℚ) : Pix :=
  let x := srcCoord img.x u
  let xint := coordInt x
  let xfract := coordFract x
  let y := srcCoord img.y v
  let yint := coordInt y
  let yfract := coordFract y
  { red := sampleChannel Pix.red img xint yint xfract yfract
    green := sampleChannel Pix.green img xint yint xfract yfract
    blue := sampleChannel Pix.blue img xint yint xfract yfract }

/-- The destination dimension computed by resize_image:
(long)((double) sourceDim * scale), i.e. truncation of the exact
product. -/
def destDim (srcDim : ℕ) (scale : ℚ) : ℕ :=
  (truncD ((srcDim : ℚ) * scale)).toNat

/-- The destination pixel of resize_image at (x, y): normalized
coordinates u = x / (destWidth - 1), v = y / (destHeight - 1), then
sample_bicubic.  The divisor is used as written in the source, with no
special case for a dimension of 1. -/
def destPixel (src : Img) (dw dh x y : ℕ) : Pix :=
  sample_bicubic src ((x : ℚ) / ((dw : ℚ) - 1)) ((y : ℚ) / ((dh : ℚ) - 1))

/-- resize_image of imgResample.c.  The destination dimensions are the
truncated products of the source dimensions with the scale; the nested
loops fill the row-major destination array with destPixel.  When a loop
iteration executes the double division y / (destHeight - 1) or
x / (destWidth - 1) with a zero divisor (destination dimension 1), the C
program produces a NaN which then reaches an undefined double-to-int
cast; that run is modelled as none.  With destHeight = 0 no divisions
are executed at all and the destination holds zero pixels. -/
def resize_image (src : Img) (scale : ℚ) : Option Img :=
  let dw := destDim src.x scale
  let dh := destDim src.y scale
  if dh = 0 then some ⟨dw, dh, []⟩
  else if dh = 1 ∨ dw = 1 then none
  else some ⟨dw, dh, (List.range (dw * dh)).map fun k =>
    destPixel src dw dh (k % dw) (k / dw)⟩

/-- One channel of one destination pixel of resize2, exactly as the four
accumulating statements of the source compute it: the first quarter is
stored into the 8-bit destination channel, then the remaining three
quarters are added one at a time, each store reducing modulo 256 as an
unsigned char does.  The four source samples are read directly (not
through get_pixel_clamped) at row-major indices 2x + w*2y, 2x+1 + w*2y,
2x + w*(2y+1), 2x+1 + w*(2y+1). -/
def box2 (f : Pix → ℕ) (src : Img) (x y : ℕ) : ℕ :=
  let t1 := f (src.data.getD (2 * x + src.x * (2 * y)) default) / 4 % 256
  let t2 := (t1 + f (src.data.getD (2 * x + 1 + src.x * (2 * y)) default) / 4) % 256
  let t3 := (t2 + f (src.data.getD (2 * x + src.x * (2 * y + 1)) default) / 4) % 256
  (t3 + f (src.data.getD (2 * x + 1 + src.x * (2 * y + 1)) default) / 4) % 256

/-- resize2 of imgResample.c: the quick 2x box downsample.  Destination
dimensions are the truncating halves of the source dimensions and every
destination pixel is filled by box2 on each channel. -/
def resize2 (src : Img) : Img :=
  let dw := src.x / 2
  let dh := src.y / 2
  ⟨dw, dh, (List.range (dw * dh)).map fun k =>
    ⟨box2 Pix.red src (k % dw) (k / dw),
     box2 Pix.green src (k % dw) (k / dw),
     box2 Pix.blue src (k % dw) (k / dw)⟩⟩

/-- State-passing form of resize_image over the pair (source buffer,
destination buffer): the call reads the source only and all writes go to
the destination, so the source component is returned unchanged (on the
NaN run the destination is left as it was). -/
def resize_image_st (bufs : Img × Img) (scale : ℚ) : Img × Img :=
  (bufs.1, (resize_image bufs.1 scale).getD bufs.2)

/-- State-passing form of resize2 over the pair (source buffer,
destination buffer): the source component is returned unchanged. -/
def resize2_st (bufs : Img × Img) : Img × Img :=
  (bufs.1, resize2 bufs.1)

/-- File-system operations the program can perform, in the order main
performs them: remove(outfile), fopen(infile) for reading inside
readPPM, fopen(outfile) for writing inside writePPM. -/
inductive FileOp where
  | remove (path : String)
  | openRead (path : String)
  | openWrite (path : String)
deriving DecidableEq

/-- The file-touching skeleton of main for a three-argument invocation,
given the scale string argv[1] and the double value atof(argv[1])
produces for it: if argv[1] differs from the literal "2x" and the parsed
scale is nonpositive, main prints an error and returns 99 before any
file operation; otherwise it removes the output file, opens the input
file for reading, and opens the output file for writing. -/
def main_model (arg1 : String) (scale : ℚ) (infile outfile : String) :
    ℤ × List FileOp :=
  if arg1 ≠ "2x" ∧ scale ≤ 0 then (99, [])
  else (0, [FileOp.remove outfile, FileOp.openRead infile,
            FileOp.openWrite outfile])

/-- The 2x2 test image of the specification scenario: corner pixels
(0,0,0), (255,255,255), (255,0,0), (0,255,0) in row-major order. -/
def testImg : Img :=
  ⟨2, 2, [⟨0, 0, 0⟩, ⟨255, 255, 255⟩, ⟨255, 0, 0⟩, ⟨0, 255, 0⟩]⟩

/-- The 4x4 test image of the specification scenario for the box
downsample: every pixel (200, 100, 50). -/
def uniImg : Img :=
  ⟨4, 4, List.replicate 16 ⟨200, 100, 50⟩⟩

/-! Helper lemmas. -/

theorem clampC_mem (v lo hi : ℤ) (h : lo ≤ hi) :
    lo ≤ clampC v lo hi ∧ clampC v lo hi ≤ hi := by
  unfold clampC
  split_ifs <;> omega

theorem index_lt (w h x y : ℕ) (hx : x < w) (hy : y < h) :
    x + w * y < w * h := by
  have h1 : x + w * y < w + w * y := Nat.add_lt_add_right hx (w * y)
  have h2 : w + w * y = w * (y + 1) := by ring
  have h3 : w * (y + 1) ≤ w * h := Nat.mul_le_mul_left w hy
  omega

theorem range_map_getD {α : Type} (n : ℕ) (f : ℕ → α) (d : α) (k : ℕ)
    (hk : k < n) :
    ((List.range n).map f).getD k d = f k := by
  have hl : k < ((List.range n).map f).length := by
    simpa using hk
  rw [List.getD_eq_getElem?_getD, List.getElem?_eq_getElem hl]
  simp

theorem valid_getD (img : Img) (hv : img.Valid) (n : ℕ) :
    (img.data.getD n default).red ≤ 255 ∧
    (img.data.getD n default).green ≤ 255 ∧
    (img.data.getD n default).blue ≤ 255 := by
  by_cases h : n < img.data.length
  · rw [List.getD_eq_getElem?_getD, List.getElem?_eq_getElem h]
    exact hv _ (List.getElem_mem h)
  · rw [List.getD_eq_getElem?_getD, List.getElem?_eq_none (by omega)]
    refine ⟨by decide, by decide, by decide⟩

theorem box2_eq (f : Pix → ℕ) (src : Img)
    (hb : ∀ n : ℕ, f (src.data.getD n default) ≤ 255) (x y : ℕ) :
    box2 f src x y =
      f (src.data.getD (2 * x + src.x * (2 * y)) default) / 4 +
      f (src.data.getD (2 * x + 1 + src.x * (2 * y)) default) / 4 +
      f (src.data.getD (2 * x + src.x * (2 * y + 1)) default) / 4 +
      f (src.data.getD (2 * x + 1 + src.x * (2 * y + 1)) default) / 4 := by
  simp only [box2]
  have ha := hb (2 * x + src.x * (2 * y))
  have hb1 := hb (2 * x + 1 + src.x * (2 * y))
  have hc := hb (2 * x + src.x * (2 * y + 1))
  have hd := hb (2 * x + 1 + src.x * (2 * y + 1))
  omega

theorem resize2_pix (src : Img) (x y : ℕ) (hx : x < src.x / 2)
    (hy : y < src.y / 2) :
    (resize2 src).pix x y =
      ⟨box2 Pix.red src x y, box2 Pix.green src x y, box2 Pix.blue src x y⟩ := by
  unfold resize2 Img.pix
  have hdw : 0 < src.x / 2 := by omega
  have hk : x + src.x / 2 * y < src.x / 2 * (src.y / 2) :=
    index_lt _ _ _ _ hx hy
  rw [range_map_getD _ _ _ _ hk]
  have hm : (x + src.x / 2 * y) % (src.x / 2) = x := by
    rw [Nat.add_mul_mod_self_left, Nat.mod_eq_of_lt hx]
  have hd : (x + src.x / 2 * y) / (src.x / 2) = y := by
    rw [Nat.add_mul_div_left _ _ hdw, Nat.div_eq_of_lt hx, Nat.zero_add]
  rw [hm, hd]

/-! Claim theorems. -/

/-- C6: for every well-formed pixel buffer with positive dimensions and
all arbitrary integers x and y (including negative values and values at
least the corresponding dimension), get_pixel_clamped returns the pixel
stored at index clamp(x,0,width-1) + width * clamp(y,0,height-1), and
that index is strictly inside the buffer, so the function never reads
outside the buffer and never fails for any integer input. -/
theorem get_pixel_clamped_spec (img : Img) (hwf : img.Wf) (hw : 1 ≤ img.x)
    (hh : 1 ≤ img.y) (x y : ℤ) :
    get_pixel_clamped img x y =
      img.data.getD ((clampC x 0 ((img.x : ℤ) - 1)).toNat +
        img.x * (clampC y 0 ((img.y : ℤ) - 1)).toNat) default ∧
    (clampC x 0 ((img.x : ℤ) - 1)).toNat +
      img.x * (clampC y 0 ((img.y : ℤ) - 1)).toNat < img.data.length := by
  obtain ⟨hx0, hx1⟩ := clampC_mem x 0 ((img.x : ℤ) - 1) (by omega)
  obtain ⟨hy0, hy1⟩ := clampC_mem y 0 ((img.y : ℤ) - 1) (by omega)
  obtain ⟨a, ha⟩ : ∃ a : ℕ, clampC x 0 ((img.x : ℤ) - 1) = (a : ℤ) :=
    ⟨(clampC x 0 ((img.x : ℤ) - 1)).toNat, (Int.toNat_of_nonneg hx0).symm⟩
  obtain ⟨b, hb⟩ : ∃ b : ℕ, clampC y 0 ((img.y : ℤ) - 1) = (b : ℤ) :=
    ⟨(clampC y 0 ((img.y : ℤ) - 1)).toNat, (Int.toNat_of_nonneg hy0).symm⟩
  rw [ha] at hx1
  rw [hb] at hy1
  have haN : a < img.x := by omega
  have hbN : b < img.y := by omega
  have hab : (a : ℤ) + (img.x : ℤ) * b = ((a + img.x * b : ℕ) : ℤ) := by
    push_cast
    ring
  constructor
  · simp only [get_pixel_clamped]
    rw [ha, hb, hab]
    simp only [Int.toNat_natCast]
  · rw [ha, hb, Int.toNat_natCast, Int.toNat_natCast, hwf]
    exact index_lt _ _ _ _ haN hbN

/-- Witness for C6: the theorem applied to the concrete 2x2 test image
at the out-of-range coordinates (-5, 7). -/
theorem get_pixel_clamped_spec_witness :
    testImg.Wf ∧ 1 ≤ testImg.x ∧ 1 ≤ testImg.y ∧
    (get_pixel_clamped testImg (-5) 7 =
      testImg.data.getD ((clampC (-5) 0 ((testImg.x : ℤ) - 1)).toNat +
        testImg.x * (clampC 7 0 ((testImg.y : ℤ) - 1)).toNat) default ∧
     (clampC (-5) 0 ((testImg.x : ℤ) - 1)).toNat +
       testImg.x * (clampC 7 0 ((testImg.y : ℤ) - 1)).toNat <
         testImg.data.length) :=
  ⟨by decide, by decide, by decide,
   get_pixel_clamped_spec testImg (by decide) (by decide) (by decide) (-5) 7⟩

/-- C5: for every valid well-formed source with both dimensions at least
2, resize2 produces a destination of dimensions floor(w/2) by
floor(h/2), and every destination pixel channel equals
floor(a/4) + floor(b/4) + floor(c/4) + floor(d/4) where a, b, c, d are
the source samples of that channel at (2x,2y), (2x+1,2y), (2x,2y+1),
(2x+1,2y+1) - each quarter truncated independently before summing. -/
theorem resize2_spec (src : Img) (hwf : src.Wf) (hw : 2 ≤ src.x)
    (hh : 2 ≤ src.y) (hv : src.Valid) :
    (resize2 src).x = src.x / 2 ∧ (resize2 src).y = src.y / 2 ∧
    ∀ x y : ℕ, x < src.x / 2 → y < src.y / 2 →
      (resize2 src).pix x y =
        ⟨(src.pix (2 * x) (2 * y)).red / 4 +
           (src.pix (2 * x + 1) (2 * y)).red / 4 +
           (src.pix (2 * x) (2 * y + 1)).red / 4 +
           (src.pix (2 * x + 1) (2 * y + 1)).red / 4,
         (src.pix (2 * x) (2 * y)).green / 4 +
           (src.pix (2 * x + 1) (2 * y)).green / 4 +
           (src.pix (2 * x) (2 * y + 1)).green / 4 +
           (src.pix (2 * x + 1) (2 * y + 1)).green / 4,
         (src.pix (2 * x) (2 * y)).blue / 4 +
           (src.pix (2 * x + 1) (2 * y)).blue / 4 +
           (src.pix (2 * x) (2 * y + 1)).blue / 4 +
           (src.pix (2 * x + 1) (2 * y + 1)).blue / 4⟩ := by
  refine ⟨rfl, rfl, fun x y hx hy => ?_⟩
  rw [resize2_pix src x y hx hy]
  rw [box2_eq Pix.red src (fun n => (valid_getD src hv n).1) x y,
      box2_eq Pix.green src (fun n => (valid_getD src hv n).2.1) x y,
      box2_eq Pix.blue src (fun n => (valid_getD src hv n).2.2) x y]
  rfl

/-- Witness for C5: the theorem applied to the concrete uniform 4x4
image at destination pixel (1, 1). -/
theorem resize2_spec_witness :
    uniImg.Wf ∧ 2 ≤ uniImg.x ∧ 2 ≤ uniImg.y ∧ uniImg.Valid ∧
    (resize2 uniImg).pix 1 1 =
      ⟨(uniImg.pix (2 * 1) (2 * 1)).red / 4 +
         (uniImg.pix (2 * 1 + 1) (2 * 1)).red / 4 +
         (uniImg.pix (2 * 1) (2 * 1 + 1)).red / 4 +
         (uniImg.pix (2 * 1 + 1) (2 * 1 + 1)).red / 4,
       (uniImg.pix (2 * 1) (2 * 1)).green / 4 +
         (uniImg.pix (2 * 1 + 1) (2 * 1)).green / 4 +
         (uniImg.pix (2 * 1) (2 * 1 + 1)).green / 4 +
         (uniImg.pix (2 * 1 + 1) (2 * 1 + 1)).green / 4,
       (uniImg.pix (2 * 1) (2 * 1)).blue / 4 +
         (uniImg.pix (2 * 1 + 1) (2 * 1)).blue / 4 +
         (uniImg.pix (2 * 1) (2 * 1 + 1)).blue / 4 +
         (uniImg.pix (2 * 1 + 1) (2 * 1 + 1)).blue / 4⟩ :=
  ⟨by decide, by decide, by decide, by decide,
   (resize2_spec uniImg (by decide) (by decide) (by decide)
     (by decide)).2.2 1 1 (by decide) (by decide)⟩

/-- C9: for every valid well-formed source with both dimensions at least
2, every output channel of resize2 lies in [0, 252]: each of the four
quarter contributions is at most 63, so the running 8-bit accumulation
never exceeds 252 and never wraps around the 8-bit destination
channel. -/
theorem resize2_channel_bound (src : Img) (hwf : src.Wf) (hw : 2 ≤ src.x)
    (hh : 2 ≤ src.y) (hv : src.Valid) (x y : ℕ) (hx : x < src.x / 2)
    (hy : y < src.y / 2) :
    ((resize2 src).pix x y).red ≤ 252 ∧
    ((resize2 src).pix x y).green ≤ 252 ∧
    ((resize2 src).pix x y).blue ≤ 252 := by
  rw [resize2_pix src x y hx hy]
  dsimp only
  refine ⟨?_, ?_, ?_⟩
  · rw [box2_eq Pix.red src (fun n => (valid_getD src hv n).1) x y]
    have h1 := (valid_getD src hv (2 * x + src.x * (2 * y))).1
    have h2 := (valid_getD src hv (2 * x + 1 + src.x * (2 * y))).1
    have h3 := (valid_getD src hv (2 * x + src.x * (2 * y + 1))).1
    have h4 := (valid_getD src hv (2 * x + 1 + src.x * (2 * y + 1))).1
    omega
  · rw [box2_eq Pix.green src (fun n => (valid_getD src hv n).2.1) x y]
    have h1 := (valid_getD src hv (2 * x + src.x * (2 * y))).2.1
    have h2 := (valid_getD src hv (2 * x + 1 + src.x * (2 * y))).2.1
    have h3 := (valid_getD src hv (2 * x + src.x * (2 * y + 1))).2.1
    have h4 := (valid_getD src hv (2 * x + 1 + src.x * (2 * y + 1))).2.1
    omega
  · rw [box2_eq Pix.blue src (fun n => (valid_getD src hv n).2.2) x y]
    have h1 := (valid_getD src hv (2 * x + src.x * (2 * y))).2.2
    have h2 := (valid_getD src hv (2 * x + 1 + src.x * (2 * y))).2.2
    have h3 := (valid_getD src hv (2 * x + src.x * (2 * y + 1))).2.2
    have h4 := (valid_getD src hv (2 * x + 1 + src.x * (2 * y + 1))).2.2
    omega

/-- Witness for C9: the theorem applied to the concrete uniform 4x4
image at destination pixel (0, 1). -/
theorem resize2_channel_bound_witness :
    uniImg.Wf ∧ 2 ≤ uniImg.x ∧ 2 ≤ uniImg.y ∧ uniImg.Valid ∧
    (0 : ℕ) < uniImg.x / 2 ∧ (1 : ℕ) < uniImg.y / 2 ∧
    (((resize2 uniImg).pix 0 1).red ≤ 252 ∧
     ((resize2 uniImg).pix 0 1).green ≤ 252 ∧
     ((resize2 uniImg).pix 0 1).blue ≤ 252) :=
  ⟨by decide, by decide, by decide, by decide, by decide, by decide,
   resize2_channel_bound uniImg (by decide) (by decide) (by decide)
     (by decide) 0 1 (by decide) (by decide)⟩

/-- C2 counterexample: on the uniform 4x4 image with every pixel
(200, 100, 50), resize2 yields pixel (0,0) equal to (200, 100, 48),
not (200, 100, 50): each blue quarter is floor(50/4) = 12 and
4 * 12 = 48. -/
theorem resize2_uniform_counterexample :
    (resize2 uniImg).pix 0 0 = ⟨200, 100, 48⟩ ∧
    (⟨200, 100, 48⟩ : Pix) ≠ ⟨200, 100, 50⟩ := by decide

/-- C2 (amended): applying resize2 to the 4x4 buffer in which every
pixel is (200, 100, 50) produces a 2x2 buffer in which every pixel is
exactly (200, 100, 48): the red and green channels survive the
quarter-truncation exactly because they are divisible by 4, the blue
channel drops to 4 * floor(50/4) = 48. -/
theorem resize2_uniform_amended :
    resize2 uniImg =
      ⟨2, 2, [⟨200, 100, 48⟩, ⟨200, 100, 48⟩, ⟨200, 100, 48⟩,
              ⟨200, 100, 48⟩]⟩ := by decide

/-- C10: both resampling operations leave the source buffer entirely
unchanged: in the state-passing embedding over the pair (source,
destination), resize_image and resize2 return the source component
identically - the source width, height and every source pixel after the
operation equal their values before it, and all writes go only to the
destination buffer. -/
theorem source_buffer_unchanged (bufs : Img × Img) (scale : ℚ) :
    (resize_image_st bufs scale).1 = bufs.1 ∧ (resize2_st bufs).1 = bufs.1 :=
  ⟨rfl, rfl⟩

/-- C7: for all control values A, B, C, D and every t in [0, 1],
cubic_hermite returns exactly the cubic polynomial of the specification,
a*t^3 + b*t^2 + c*t + d with a = -A/2 + 3B/2 - 3C/2 + D/2,
b = A - 5B/2 + 2C - D/2, c = -A/2 + C/2, d = B; and it performs no
clamping: at the in-range control values (0, 255, 255, 255) and t = 1/2
its result exceeds 255. -/
theorem cubic_hermite_matches_spec (A B C D t : ℚ) (h0 : 0 ≤ t)
    (h1 : t ≤ 1) :
    cubic_hermite A B C D t = hermite_spec A B C D t ∧
    255 < cubic_hermite 0 255 255 255 (1 / 2) := by
  constructor
  · simp only [cubic_hermite, hermite_spec]
    ring
  · norm_num [cubic_hermite]

/-- Witness for C7: the theorem applied at the concrete control values
(1, 2, 3, 4) and t = 1/2. -/
theorem cubic_hermite_matches_spec_witness :
    (0 : ℚ) ≤ 1 / 2 ∧ (1 / 2 : ℚ) ≤ 1 ∧
    (cubic_hermite 1 2 3 4 (1 / 2) = hermite_spec 1 2 3 4 (1 / 2) ∧
     255 < cubic_hermite 0 255 255 255 (1 / 2)) :=
  ⟨by norm_num, by norm_num,
   cubic_hermite_matches_spec 1 2 3 4 (1 / 2) (by norm_num) (by norm_num)⟩

/-- C8: for every invocation whose scale argument is not the literal
token "2x" and whose parsed factor is nonpositive, main reports an error
and exits with the distinguished non-zero status 99 before performing
any file operation: no file is removed, opened for reading, or opened
for writing. -/
theorem main_rejects_nonpositive_scale (arg1 : String) (scale : ℚ)
    (infile outfile : String) (h1 : arg1 ≠ "2x") (h2 : scale ≤ 0) :
    main_model arg1 scale infile outfile = (99, []) ∧ (99 : ℤ) ≠ 0 := by
  constructor
  · unfold main_model
    rw [if_pos ⟨h1, h2⟩]
  · decide

/-- Witness for C8: the theorem applied to the concrete invocation with
scale string "0" parsing to the factor 0. -/
theorem main_rejects_nonpositive_scale_witness :
    ("0" ≠ "2x") ∧ ((0 : ℚ) ≤ 0) ∧
    main_model "0" 0 "in.ppm" "out.ppm" = (99, []) :=
  ⟨by decide, le_refl 0,
   (main_rejects_nonpositive_scale "0" 0 "in.ppm" "out.ppm" (by decide)
     (le_refl 0)).1⟩

set_option maxHeartbeats 2000000 in
theorem sampleCorner00 : sample_bicubic testImg 0 0 = ⟨127, 127, 63⟩ := by
  have hxi : coordInt (srcCoord testImg.x 0) = 0 := by
    norm_num [coordInt, srcCoord, truncD, testImg]
  have hxf : coordFract (srcCoord testImg.x 0) = 1 / 2 := by
    norm_num [coordFract, srcCoord, testImg]
  have hyi : coordInt (srcCoord testImg.y 0) = 0 := by
    norm_num [coordInt, srcCoord, truncD, testImg]
  have hyf : coordFract (srcCoord testImg.y 0) = 1 / 2 := by
    norm_num [coordFract, srcCoord, testImg]
  simp only [sample_bicubic]
  rw [hxi, hxf, hyi, hyf]
  simp only [sampleChannel]
  have e0 : get_pixel_clamped testImg (0 + -1) (0 + -1) = ⟨0, 0, 0⟩ := by decide
  have e1 : get_pixel_clamped testImg (0 + 0) (0 + -1) = ⟨0, 0, 0⟩ := by decide
  have e2 : get_pixel_clamped testImg (0 + 1) (0 + -1) = ⟨255, 255, 255⟩ := by decide
  have e3 : get_pixel_clamped testImg (0 + 2) (0 + -1) = ⟨255, 255, 255⟩ := by decide
  have e4 : get_pixel_clamped testImg (0 + -1) (0 + 0) = ⟨0, 0, 0⟩ := by decide
  have e5 : get_pixel_clamped testImg (0 + 0) (0 + 0) = ⟨0, 0, 0⟩ := by decide
  have e6 : get_pixel_clamped testImg (0 + 1) (0 + 0) = ⟨255, 255, 255⟩ := by decide
  have e7 : get_pixel_clamped testImg (0 + 2) (0 + 0) = ⟨255, 255, 255⟩ := by decide
  have e8 : get_pixel_clamped testImg (0 + -1) (0 + 1) = ⟨255, 0, 0⟩ := by decide
  have e9 : get_pixel_clamped testImg (0 + 0) (0 + 1) = ⟨255, 0, 0⟩ := by decide
  have e10 : get_pixel_clamped testImg (0 + 1) (0 + 1) = ⟨0, 255, 0⟩ := by decide
  have e11 : get_pixel_clamped testImg (0 + 2) (0 + 1) = ⟨0, 255, 0⟩ := by decide
  have e12 : get_pixel_clamped testImg (0 + -1) (0 + 2) = ⟨255, 0, 0⟩ := by decide
  have e13 : get_pixel_clamped testImg (0 + 0) (0 + 2) = ⟨255, 0, 0⟩ := by decide
  have e14 : get_pixel_clamped testImg (0 + 1) (0 + 2) = ⟨0, 255, 0⟩ := by decide
  have e15 : get_pixel_clamped testImg (0 + 2) (0 + 2) = ⟨0, 255, 0⟩ := by decide
  rw [e0, e1, e2, e3, e4, e5, e6, e7, e8, e9, e10, e11, e12, e13, e14, e15]
  norm_num [cubic_hermite, clampQ, truncD]
  all_goals omega

set_option maxHeartbeats 2000000 in
theorem sampleCorner10 : sample_bicubic testImg 1 0 = ⟨127, 255, 135⟩ := by
  have hxi : coordInt (srcCoord testImg.x 1) = 1 := by
    norm_num [coordInt, srcCoord, truncD, testImg]
  have hxf : coordFract (srcCoord testImg.x 1) = 1 / 2 := by
    norm_num [coordFract, srcCoord, testImg]
  have hyi : coordInt (srcCoord testImg.y 0) = 0 := by
    norm_num [coordInt, srcCoord, truncD, testImg]
  have hyf : coordFract (srcCoord testImg.y 0) = 1 / 2 := by
    norm_num [coordFract, srcCoord, testImg]
  simp only [sample_bicubic]
  rw [hxi, hxf, hyi, hyf]
  simp only [sampleChannel]
  have e0 : get_pixel_clamped testImg (1 + -1) (0 + -1) = ⟨0, 0, 0⟩ := by decide
  have e1 : get_pixel_clamped testImg (1 + 0) (0 + -1) = ⟨255, 255, 255⟩ := by decide
  have e2 : get_pixel_clamped testImg (1 + 1) (0 + -1) = ⟨255, 255, 255⟩ := by decide
  have e3 : get_pixel_clamped testImg (1 + 2) (0 + -1) = ⟨255, 255, 255⟩ := by decide
  have e4 : get_pixel_clamped testImg (1 + -1) (0 + 0) = ⟨0, 0, 0⟩ := by decide
  have e5 : get_pixel_clamped testImg (1 + 0) (0 + 0) = ⟨255, 255, 255⟩ := by decide
  have e6 : get_pixel_clamped testImg (1 + 1) (0 + 0) = ⟨255, 255, 255⟩ := by decide
  have e7 : get_pixel_clamped testImg (1 + 2) (0 + 0) = ⟨255, 255, 255⟩ := by decide
  have e8 : get_pixel_clamped testImg (1 + -1) (0 + 1) = ⟨255, 0, 0⟩ := by decide
  have e9 : get_pixel_clamped testImg (1 + 0) (0 + 1) = ⟨0, 255, 0⟩ := by decide
  have e10 : get_pixel_clamped testImg (1 + 1) (0 + 1) = ⟨0, 255, 0⟩ := by decide
  have e11 : get_pixel_clamped testImg (1 + 2) (0 + 1) = ⟨0, 255, 0⟩ := by decide
  have e12 : get_pixel_clamped testImg (1 + -1) (0 + 2) = ⟨255, 0, 0⟩ := by decide
  have e13 : get_pixel_clamped testImg (1 + 0) (0 + 2) = ⟨0, 255, 0⟩ := by decide
  have e14 : get_pixel_clamped testImg (1 + 1) (0 + 2) = ⟨0, 255, 0⟩ := by decide
  have e15 : get_pixel_clamped testImg (1 + 2) (0 + 2) = ⟨0, 255, 0⟩ := by decide
  rw [e0, e1, e2, e3, e4, e5, e6, e7, e8, e9, e10, e11, e12, e13, e14, e15]
  norm_num [cubic_hermite, clampQ, truncD]
  all_goals omega

set_option maxHeartbeats 2000000 in
theorem sampleCorner01 : sample_bicubic testImg 0 1 = ⟨127, 127, 0⟩ := by
  have hxi : coordInt (srcCoord testImg.x 0) = 0 := by
    norm_num [coordInt, srcCoord, truncD, testImg]
  have hxf : coordFract (srcCoord testImg.x 0) = 1 / 2 := by
    norm_num [coordFract, srcCoord, testImg]
  have hyi : coordInt (srcCoord testImg.y 1) = 1 := by
    norm_num [coordInt, srcCoord, truncD, testImg]
  have hyf : coordFract (srcCoord testImg.y 1) = 1 / 2 := by
    norm_num [coordFract, srcCoord, testImg]
  simp only [sample_bicubic]
  rw [hxi, hxf, hyi, hyf]
  simp only [sampleChannel]
  have e0 : get_pixel_clamped testImg (0 + -1) (1 + -1) = ⟨0, 0, 0⟩ := by decide
  have e1 : get_pixel_clamped testImg (0 + 0) (1 + -1) = ⟨0, 0, 0⟩ := by decide
  have e2 : get_pixel_clamped testImg (0 + 1) (1 + -1) = ⟨255, 255, 255⟩ := by decide
  have e3 : get_pixel_clamped testImg (0 + 2) (1 + -1) = ⟨255, 255, 255⟩ := by decide
  have e4 : get_pixel_clamped testImg (0 + -1) (1 + 0) = ⟨255, 0, 0⟩ := by decide
  have e5 : get_pixel_clamped testImg (0 + 0) (1 + 0) = ⟨255, 0, 0⟩ := by decide
  have e6 : get_pixel_clamped testImg (0 + 1) (1 + 0) = ⟨0, 255, 0⟩ := by decide
  have e7 : get_pixel_clamped testImg (0 + 2) (1 + 0) = ⟨0, 255, 0⟩ := by decide
  have e8 : get_pixel_clamped testImg (0 + -1) (1 + 1) = ⟨255, 0, 0⟩ := by decide
  have e9 : get_pixel_clamped testImg (0 + 0) (1 + 1) = ⟨255, 0, 0⟩ := by decide
  have e10 : get_pixel_clamped testImg (0 + 1) (1 + 1) = ⟨0, 255, 0⟩ := by decide
  have e11 : get_pixel_clamped testImg (0 + 2) (1 + 1) = ⟨0, 255, 0⟩ := by decide
  have e12 : get_pixel_clamped testImg (0 + -1) (1 + 2) = ⟨255, 0, 0⟩ := by decide
  have e13 : get_pixel_clamped testImg (0 + 0) (1 + 2) = ⟨255, 0, 0⟩ := by decide
  have e14 : get_pixel_clamped testImg (0 + 1) (1 + 2) = ⟨0, 255, 0⟩ := by decide
  have e15 : get_pixel_clamped testImg (0 + 2) (1 + 2) = ⟨0, 255, 0⟩ := by decide
  rw [e0, e1, e2, e3, e4, e5, e6, e7, e8, e9, e10, e11, e12, e13, e14, e15]
  norm_num [cubic_hermite, clampQ, truncD]
  all_goals omega

set_option maxHeartbeats 2000000 in
theorem sampleCorner11 : sample_bicubic testImg 1 1 = ⟨0, 255, 0⟩ := by
  have hxi : coordInt (srcCoord testImg.x 1) = 1 := by
    norm_num [coordInt, srcCoord, truncD, testImg]
  have hxf : coordFract (srcCoord testImg.x 1) = 1 / 2 := by
    norm_num [coordFract, srcCoord, testImg]
  have hyi : coordInt (srcCoord testImg.y 1) = 1 := by
    norm_num [coordInt, srcCoord, truncD, testImg]
  have hyf : coordFract (srcCoord testImg.y 1) = 1 / 2 := by
    norm_num [coordFract, srcCoord, testImg]
  simp only [sample_bicubic]
  rw [hxi, hxf, hyi, hyf]
  simp only [sampleChannel]
  have e0 : get_pixel_clamped testImg (1 + -1) (1 + -1) = ⟨0, 0, 0⟩ := by decide
  have e1 : get_pixel_clamped testImg (1 + 0) (1 + -1) = ⟨255, 255, 255⟩ := by decide
  have e2 : get_pixel_clamped testImg (1 + 1) (1 + -1) = ⟨255, 255, 255⟩ := by decide
  have e3 : get_pixel_clamped testImg (1 + 2) (1 + -1) = ⟨255, 255, 255⟩ := by decide
  have e4 : get_pixel_clamped testImg (1 + -1) (1 + 0) = ⟨255, 0, 0⟩ := by decide
  have e5 : get_pixel_clamped testImg (1 + 0) (1 + 0) = ⟨0, 255, 0⟩ := by decide
  have e6 : get_pixel_clamped testImg (1 + 1) (1 + 0) = ⟨0, 255, 0⟩ := by decide
  have e7 : get_pixel_clamped testImg (1 + 2) (1 + 0) = ⟨0, 255, 0⟩ := by decide
  have e8 : get_pixel_clamped testImg (1 + -1) (1 + 1) = ⟨255, 0, 0⟩ := by decide
  have e9 : get_pixel_clamped testImg (1 + 0) (1 + 1) = ⟨0, 255, 0⟩ := by decide
  have e10 : get_pixel_clamped testImg (1 + 1) (1 + 1) = ⟨0, 255, 0⟩ := by decide
  have e11 : get_pixel_clamped testImg (1 + 2) (1 + 1) = ⟨0, 255, 0⟩ := by decide
  have e12 : get_pixel_clamped testImg (1 + -1) (1 + 2) = ⟨255, 0, 0⟩ := by decide
  have e13 : get_pixel_clamped testImg (1 + 0) (1 + 2) = ⟨0, 255, 0⟩ := by decide
  have e14 : get_pixel_clamped testImg (1 + 1) (1 + 2) = ⟨0, 255, 0⟩ := by decide
  have e15 : get_pixel_clamped testImg (1 + 2) (1 + 2) = ⟨0, 255, 0⟩ := by decide
  rw [e0, e1, e2, e3, e4, e5, e6, e7, e8, e9, e10, e11, e12, e13, e14, e15]
  norm_num [cubic_hermite, clampQ, truncD]
  all_goals omega

theorem resize_one_eval :
    resize_image testImg 1 =
      some ⟨2, 2, [⟨127, 127, 63⟩, ⟨127, 255, 135⟩, ⟨127, 127, 0⟩,
                   ⟨0, 255, 0⟩]⟩ := by
  have hd : destDim 2 1 = 2 := by
    norm_num [destDim, truncD]
    omega
  have hu0 : ((0 : ℕ) : ℚ) / (((2 : ℕ) : ℚ) - 1) = 0 := by norm_num
  have hu1 : ((1 : ℕ) : ℚ) / (((2 : ℕ) : ℚ) - 1) = 1 := by norm_num
  have hp0 : destPixel testImg 2 2 0 0 = ⟨127, 127, 63⟩ := by
    unfold destPixel
    rw [hu0]
    exact sampleCorner00
  have hp1 : destPixel testImg 2 2 1 0 = ⟨127, 255, 135⟩ := by
    unfold destPixel
    rw [hu0, hu1]
    exact sampleCorner10
  have hp2 : destPixel testImg 2 2 0 1 = ⟨127, 127, 0⟩ := by
    unfold destPixel
    rw [hu0, hu1]
    exact sampleCorner01
  have hp3 : destPixel testImg 2 2 1 1 = ⟨0, 255, 0⟩ := by
    unfold destPixel
    rw [hu1]
    exact sampleCorner11
  have hx2 : testImg.x = 2 := rfl
  have hy2 : testImg.y = 2 := rfl
  simp only [resize_image]
  rw [hx2, hy2, hd]
  norm_num
  rw [show List.range (2 * 2) = [0, 1, 2, 3] from by decide]
  simp only [List.map_cons, List.map_nil]
  norm_num
  rw [hp0, hp1, hp2, hp3]
  exact ⟨rfl, rfl, rfl, rfl⟩

/-- C1: contrary to the claim, the integer base index used by
sample_bicubic to anchor the 4x4 neighborhood is the C int cast of x,
which truncates toward zero, not floor(x): at sourceWidth 2 and u = 0
the fractional coordinate is x = -1/2, the code base index coordInt x
is 0 while floor x is -1, and the fractional offset coordFract x = 1/2
is computed relative to the floor, so it differs from
x - xint = -1/2.  For negative non-integer x the neighborhood is
anchored one pixel to the right of the floor. -/
theorem bicubic_anchor_truncates_not_floors :
    srcCoord 2 0 = -(1 / 2) ∧
    coordInt (srcCoord 2 0) = 0 ∧
    ⌊srcCoord 2 0⌋ = -1 ∧
    coordFract (srcCoord 2 0) = 1 / 2 ∧
    srcCoord 2 0 - (coordInt (srcCoord 2 0) : ℚ) = -(1 / 2) := by
  have h : srcCoord 2 0 = -(1 / 2) := by
    norm_num [srcCoord]
  have h2 : coordInt (-(1 / 2) : ℚ) = 0 := by
    norm_num [coordInt, truncD]
  refine ⟨h, ?_, ?_, ?_, ?_⟩
  · rw [h]
    exact h2
  · rw [h]
    norm_num
  · rw [h]
    norm_num [coordFract]
  · rw [h, h2]
    norm_num

/-- C4: contrary to the claim, resize_image special-cases nothing: when
a destination dimension equals 1 the normalized-coordinate divisor is
zero and the double division is executed anyway.  At the 2x2 test image
with factor 1/2 both destination dimensions are 1 and the run reaches
the zero-divisor division (modelled as none) instead of producing a
defined coordinate value. -/
theorem resize_image_dim_one_divzero :
    destDim testImg.x (1 / 2) = 1 ∧ destDim testImg.y (1 / 2) = 1 ∧
    resize_image testImg (1 / 2) = none := by
  have hx : destDim testImg.x (1 / 2) = 1 := by
    norm_num [destDim, truncD, testImg]
  have hy : destDim testImg.y (1 / 2) = 1 := by
    norm_num [destDim, truncD, testImg]
  refine ⟨hx, hy, ?_⟩
  simp only [resize_image]
  rw [hx, hy]
  norm_num

/-- C3 counterexample: at factor 1.0 on the 2x2 test source the
destination corner (0,0) is (127,127,63) while the source corner (0,0)
is (0,0,0), so the corner pixel values do not equal the corresponding
source corners. -/
theorem resize_factor_one_corner_differs :
    Option.map (fun d => d.pix 0 0) (resize_image testImg 1) =
      some ⟨127, 127, 63⟩ ∧
    testImg.pix 0 0 = ⟨0, 0, 0⟩ ∧
    (⟨127, 127, 63⟩ : Pix) ≠ ⟨0, 0, 0⟩ := by
  refine ⟨?_, by decide, by decide⟩
  rw [resize_one_eval]
  decide

/-- C3 (amended): resizing the 2x2 test source by factor 1.0 produces a
destination whose dimensions equal the source dimensions (2x2), but
whose corner pixel values are (127,127,63), (127,255,135), (127,127,0)
and (0,255,0): only the (1,1) corner reproduces the source corner,
because u = 0 and v = 0 map to source coordinate -0.5, which is not an
integer sample node. -/
theorem resize_factor_one_amended :
    resize_image testImg 1 =
      some ⟨2, 2, [⟨127, 127, 63⟩, ⟨127, 255, 135⟩, ⟨127, 127, 0⟩,
                   ⟨0, 255, 0⟩]⟩ :=
  resize_one_eval
